import Mathlib

/-!
Shallow embedding of the TypeTrack typing-trainer metrics and analytics
code (frontend/app.js and the analytics component), over exact rationals.
JavaScript `Math.round` is modelled by `jsRound` (round half toward +∞);
the few places where the JavaScript code can produce a non-finite number
(NaN or Infinity, from an unguarded division by zero) are modelled with
`Option`, `none` standing for the non-finite result.
-/

namespace TypeTrack

/-- JavaScript `Math.round`: round half toward positive infinity. -/
def jsRound (q : ℚ) : ℤ := ⌊q + 1 / 2⌋

/-- Rounding to two decimals, `Math.round(q * 100) / 100`, as used for the
final submission values in `submitTest`. -/
def jsRound2 (q : ℚ) : ℚ := (jsRound (q * 100) : ℚ) / 100

/-- The whitespace class of the JavaScript regex `\s` restricted to the
ASCII characters that occur in typing input: space, tab, newline,
carriage return, vertical tab, form feed. -/
def isJsWs (c : Char) : Bool :=
  c = ' ' || c = '\t' || c = '\n' || c = '\r' || c = '\x0b' || c = '\x0c'

/-- JavaScript `String.prototype.trim`: drop leading and trailing
whitespace. -/
def jsTrim (s : List Char) : List Char :=
  ((s.dropWhile isJsWs).reverse.dropWhile isJsWs).reverse

/-- Number of maximal runs of non-whitespace characters (the tokens that
`split(/\s+/)` yields on a trimmed, non-empty string).  The boolean
argument records whether we are currently inside a token. -/
def countTokensAux : Bool → List Char → ℕ
  | _, [] => 0
  | inTok, c :: rest =>
      if isJsWs c then countTokensAux false rest
      else (if inTok then 0 else 1) + countTokensAux true rest

/-- Token count of a trimmed string. -/
def countTokens (s : List Char) : ℕ := countTokensAux false s

/-- `input.trim().split(/\s+/).length` from `calculateLocalMetrics` and
`submitTest`.  On a trimmed non-empty string `split(/\s+/)` returns
exactly the maximal non-whitespace runs; on the empty string JavaScript
returns `[""]`, of length 1, which is why the empty branch yields 1. -/
def words (input : List Char) : ℕ :=
  let t := jsTrim input
  if t = [] then 1 else countTokens t

/-- The matching-character count of `calculateLocalMetrics`/`submitTest`:
the loop over `i < min(input.length, prompt.length)` counting positions
with `input[i] === prompt[i]`. -/
def correctChars (input prompt : List Char) : ℕ :=
  ((input.zip prompt).filter fun p => p.1 = p.2).length

/-- Live accuracy from `calculateLocalMetrics`:
`prompt.length > 0 ? Math.round((correctChars / prompt.length) * 100) : 100`. -/
def localAccuracy (input prompt : List Char) : ℤ :=
  if 0 < prompt.length then
    jsRound ((correctChars input prompt : ℚ) / (prompt.length : ℚ) * 100)
  else 100

/-- Submit-time accuracy from `submitTest`:
`(correctChars / prompt.length) * 100`, then rounded to two decimals.
There is no guard on `prompt.length`; for an empty prompt the JavaScript
division is `0/0 = NaN`, modelled as `none`. -/
def submitAccuracy (input prompt : List Char) : Option ℚ :=
  if prompt.length = 0 then none
  else some (jsRound2 ((correctChars input prompt : ℚ) / (prompt.length : ℚ) * 100))

/-- Live WPM from `calculateLocalMetrics`:
`elapsedMinutes > 0 ? Math.round(words / elapsedMinutes) : 0`. -/
def localWpm (input : List Char) (elapsedMinutes : ℚ) : ℤ :=
  if 0 < elapsedMinutes then jsRound ((words input : ℚ) / elapsedMinutes) else 0

/-- Submit-time WPM from `submitTest`:
`words / (elapsedSeconds / 60)`, then rounded to two decimals.  There is
no guard on the elapsed time; at zero elapsed seconds the JavaScript
division yields Infinity (the word count is never 0), modelled as
`none`. -/
def submitWpm (input : List Char) (elapsedSeconds : ℚ) : Option ℚ :=
  if elapsedSeconds = 0 then none
  else some (jsRound2 ((words input : ℚ) / (elapsedSeconds / 60)))

/-- A completed session record, with the fields the analytics component
reads.  `difficulty` is `none` when the field is missing (`undefined` or
`null` in JavaScript); the empty string is likewise falsy for the
`session.difficulty || 'medium'` default. -/
structure Session where
  difficulty : Option String
  wpm : ℚ
  accuracy : ℚ
deriving Repr, DecidableEq

/-- `calculateChange` from the analytics component, on the list of values
of the chosen metric field over `history` (most-recent-first): return 0
for fewer than 10 records, else compare the average of the first 5
(`slice(0, 5)`) against the average of the last 5 (`slice(-5)`), the
`olderAvg > 0` guard returning 0 otherwise. -/
def calculateChange (history : List ℚ) : ℤ :=
  if history.length < 10 then 0
  else
    let recent := history.take 5
    let older := history.drop (history.length - 5)
    let recentAvg := recent.sum / (recent.length : ℚ)
    let olderAvg := older.sum / (older.length : ℚ)
    if 0 < olderAvg then jsRound ((recentAvg - olderAvg) / olderAvg * 100) else 0

/-- `calculateVariance` from the analytics component: population variance,
guarded to 0 on the empty list. -/
def calculateVariance (values : List ℚ) : ℚ :=
  if values.length = 0 then 0
  else
    let mean := values.sum / (values.length : ℚ)
    (values.map fun v => (v - mean) ^ 2).sum / (values.length : ℚ)

/-- The consistency score computed in `updateDetailedStats`:
`Math.max(0, 100 - (variance / 10))` over the WPM values. -/
def consistencyScore (wpmValues : List ℚ) : ℚ :=
  max 0 (100 - calculateVariance wpmValues / 10)

/-- The `session.difficulty || 'medium'` defaulting in
`calculateDifficultyStats`: a missing or empty (falsy) difficulty becomes
`"medium"`. -/
def effectiveDifficulty (s : Session) : String :=
  match s.difficulty with
  | none => "medium"
  | some d => if d = "" then "medium" else d

/-- One row of the difficulty breakdown. -/
structure DiffStat where
  difficulty : String
  count : ℕ
  avgWpm : ℚ
  avgAccuracy : ℚ
deriving Repr, DecidableEq

/-- `calculateDifficultyStats`: group the sessions under the keys
`easy`/`medium`/`hard` (a session whose defaulted difficulty is not one
of the three keys fails the `if (stats[difficulty])` check and is
dropped), then report count and averages per group, 0 for an empty
group. -/
def calculateDifficultyStats (sessions : List Session) : List DiffStat :=
  ["easy", "medium", "hard"].map fun d =>
    let group := sessions.filter fun s => effectiveDifficulty s = d
    { difficulty := d
      count := group.length
      avgWpm :=
        if 0 < group.length then (group.map Session.wpm).sum / (group.length : ℚ) else 0
      avgAccuracy :=
        if 0 < group.length then (group.map Session.accuracy).sum / (group.length : ℚ) else 0 }

/-- Sum of the per-group counts of a difficulty breakdown. -/
def sumCounts (stats : List DiffStat) : ℕ := (stats.map DiffStat.count).sum

/-- `Σ x_i` for the regression index values `x = 0, …, n-1`. -/
def sumX (n : ℕ) : ℚ := ((List.range n).map fun i => (i : ℚ)).sum

/-- `Σ x_i²` for the regression index values. -/
def sumXX (n : ℕ) : ℚ := ((List.range n).map fun i => (i : ℚ) * i).sum

/-- `Σ x_i·y_i`, the `x.reduce((sum, val, i) => sum + val * y[i], 0)` of
`calculateLinearRegression`. -/
def sumXY (values : List ℚ) : ℚ :=
  (values.enum.map fun p => (p.1 : ℚ) * p.2).sum

/-- The least-squares slope `(nΣxy - ΣxΣy) / (nΣx² - (Σx)²)` computed by
`calculateLinearRegression`. -/
def regressionSlope (values : List ℚ) : ℚ :=
  let n := values.length
  ((n : ℚ) * sumXY values - sumX n * values.sum) / ((n : ℚ) * sumXX n - sumX n * sumX n)

/-- The intercept `(Σy - slope·Σx)/n` computed by
`calculateLinearRegression`. -/
def regressionIntercept (values : List ℚ) : ℚ :=
  (values.sum - regressionSlope values * sumX values.length) / (values.length : ℚ)

/-- `calculateLinearRegression`: fitted value `slope·x + intercept` per
index.  The code performs the slope division unguarded; the denominator
`nΣx² - (Σx)²` is zero exactly when `n ≤ 1`, and in that case the
numerator is zero too, so the JavaScript division is `0/0 = NaN` and NaN
propagates to every fitted value - modelled as `none` entries.  (For
`n = 0` the output list is empty either way.) -/
def calculateLinearRegression (values : List ℚ) : List (Option ℚ) :=
  let n := values.length
  if (n : ℚ) * sumXX n - sumX n * sumX n = 0 then List.replicate n none
  else
    (List.range n).map fun i =>
      some (regressionSlope values * i + regressionIntercept values)

/-- `Math.min(...values)` on a non-empty list. -/
def listMin : List ℚ → ℚ
  | [] => 0
  | x :: xs => xs.foldl min x

/-- `Math.max(...values)` on a non-empty list. -/
def listMax : List ℚ → ℚ
  | [] => 0
  | x :: xs => xs.foldl max x

/-- One histogram bin: rounded boundaries and the count of values `v`
with `binMin ≤ v < binMax`. -/
structure Bin where
  binMin : ℤ
  binMax : ℤ
  count : ℕ
deriving Repr, DecidableEq

/-- `createHistogramBins`: empty input gives no bins; otherwise
`binWidth = (max - min) / binCount` and bin `i` counts the values in
`[round(min + i·binWidth), round(min + (i+1)·binWidth))` - a half-open
interval, also for the last bin. -/
def createHistogramBins (values : List ℚ) (binCount : ℕ) : List Bin :=
  if values.length = 0 then []
  else
    let mn := listMin values
    let mx := listMax values
    let binWidth := (mx - mn) / (binCount : ℚ)
    (List.range binCount).map fun i =>
      let lo := jsRound (mn + i * binWidth)
      let hi := jsRound (mn + (i + 1) * binWidth)
      { binMin := lo
        binMax := hi
        count := (values.filter fun v => (lo : ℚ) ≤ v ∧ v < (hi : ℚ)).length }

/-- The live-test fields of the frontend application state that the
timer lifecycle touches.  `timer` is true exactly when a live
`setInterval` handle is held in `state.timer`. -/
structure AppState where
  isAuthenticated : Bool
  hasCurrentTest : Bool
  timer : Bool
deriving Repr, DecidableEq

/-- The `if (this.state.timer) clearInterval(this.state.timer)` pattern
shared by `finishTest`, `resetTest` and `logout`. -/
def clearTimer (s : AppState) : AppState :=
  if s.timer then { s with timer := false } else s

/-- `finishTest`: clears the timer and disables the input (the DOM side
is outside the model). -/
def finishTest (s : AppState) : AppState := clearTimer s

/-- `resetTest`: clears the timer and discards the current test. -/
def resetTest (s : AppState) : AppState :=
  { clearTimer s with hasCurrentTest := false }

/-- `logout`: clears authentication state and the timer, then reloads
the page. -/
def logout (s : AppState) : AppState :=
  { clearTimer s with isAuthenticated := false }

/-- `startTimer` (reached from `handleTyping` on the first keystroke):
clears any existing interval and installs a fresh one. -/
def startTimer (s : AppState) : AppState :=
  { clearTimer s with timer := true }

end TypeTrack

open TypeTrack

section Helpers

lemma jsRound_nonneg {q : ℚ} (h : 0 ≤ q) : 0 ≤ jsRound q := by
  unfold jsRound
  exact Int.floor_nonneg.mpr (by linarith)

lemma jsRound_le_intCast {q : ℚ} {m : ℤ} (h : q ≤ m) : jsRound q ≤ m := by
  unfold jsRound
  have hm : ⌊(m : ℚ) + 1 / 2⌋ = m := by
    rw [Int.floor_eq_iff]
    constructor
    · linarith
    · linarith
  calc ⌊q + 1 / 2⌋ ≤ ⌊(m : ℚ) + 1 / 2⌋ := Int.floor_le_floor (by linarith)
    _ = m := hm

lemma jsRound2_nonneg {q : ℚ} (h : 0 ≤ q) : 0 ≤ jsRound2 q := by
  unfold jsRound2
  have : (0 : ℤ) ≤ jsRound (q * 100) := jsRound_nonneg (by positivity)
  positivity

lemma jsRound2_le_100 {q : ℚ} (h : q ≤ 100) : jsRound2 q ≤ 100 := by
  unfold jsRound2
  have h1 : jsRound (q * 100) ≤ (10000 : ℤ) := jsRound_le_intCast (by push_cast; linarith)
  have h2 : (jsRound (q * 100) : ℚ) ≤ 10000 := by exact_mod_cast h1
  linarith

lemma correctChars_le_prompt (input prompt : List Char) :
    correctChars input prompt ≤ prompt.length := by
  unfold correctChars
  calc ((input.zip prompt).filter fun p => p.1 = p.2).length
      ≤ (input.zip prompt).length := List.length_filter_le _ _
    _ = min input.length prompt.length := List.length_zip _ _
    _ ≤ prompt.length := min_le_right _ _

end Helpers

/-- C1 (counterexample): the claim says the submit-time accuracy is
guarded to 100 for an empty prompt, but `submitTest` performs the
division unguarded, so for the empty prompt it produces NaN (`none`),
not 100. -/
theorem c1_empty_prompt_submit_not_guarded :
    submitAccuracy [] [] ≠ some 100 := by
  simp [submitAccuracy]

/-- C1 (amended): the live accuracy equals `round(100·correctCount/len(prompt))`
and is guarded to 100 for an empty prompt; the submit-time accuracy equals
`100·correctCount/len(prompt)` rounded to two decimals for a non-empty
prompt but is NaN (unguarded) for an empty prompt; the live accuracy and
every numeric submit-time accuracy lie in [0, 100]. -/
theorem c1_accuracy_formula_and_bounds :
    ∀ (input prompt : List Char),
      localAccuracy input prompt =
        (if prompt.length = 0 then 100
         else jsRound (100 * (correctChars input prompt : ℚ) / (prompt.length : ℚ))) ∧
      submitAccuracy input prompt =
        (if prompt.length = 0 then none
         else some (jsRound2 (100 * (correctChars input prompt : ℚ) / (prompt.length : ℚ)))) ∧
      0 ≤ localAccuracy input prompt ∧ localAccuracy input prompt ≤ 100 ∧
      0 ≤ (submitAccuracy input prompt).getD 0 ∧ (submitAccuracy input prompt).getD 0 ≤ 100 := by
  intro input prompt
  by_cases hp : prompt.length = 0
  · simp [localAccuracy, submitAccuracy, hp]
  · have hpos : 0 < prompt.length := Nat.pos_of_ne_zero hp
    have hposQ : (0 : ℚ) < (prompt.length : ℚ) := by exact_mod_cast hpos
    have hc : (correctChars input prompt : ℚ) ≤ (prompt.length : ℚ) := by
      exact_mod_cast correctChars_le_prompt input prompt
    have hc0 : (0 : ℚ) ≤ (correctChars input prompt : ℚ) := by positivity
    have hq0 : (0 : ℚ) ≤ (correctChars input prompt : ℚ) / (prompt.length : ℚ) * 100 := by
      positivity
    have hq100 : (correctChars input prompt : ℚ) / (prompt.length : ℚ) * 100 ≤ 100 := by
      have : (correctChars input prompt : ℚ) / (prompt.length : ℚ) ≤ 1 :=
        (div_le_one hposQ).mpr hc
      linarith
    have harg : (correctChars input prompt : ℚ) / (prompt.length : ℚ) * 100 =
        100 * (correctChars input prompt : ℚ) / (prompt.length : ℚ) := by
      ring
    refine ⟨?_, ?_, ?_, ?_, ?_, ?_⟩
    · simp only [localAccuracy, if_pos hpos, if_neg hp, harg]
    · simp only [submitAccuracy, if_neg hp, harg]
    · simp only [localAccuracy, if_pos hpos]
      exact jsRound_nonneg hq0
    · simp only [localAccuracy, if_pos hpos]
      exact jsRound_le_intCast (by exact_mod_cast hq100)
    · simp only [submitAccuracy, if_neg hp, Option.getD_some]
      exact jsRound2_nonneg hq0
    · simp only [submitAccuracy, if_neg hp, Option.getD_some]
      exact jsRound2_le_100 hq100

/-- C2 (counterexample): the claim says the word count of the empty typed
string is 0 and that WPM is 0 before any elapsed time has passed, but the
code computes `"".trim().split(/\s+/).length = 1`, and the submit-time
WPM at zero elapsed seconds is the unguarded `1 / 0 = Infinity` (`none`),
not 0. -/
theorem c2_empty_word_count_is_one :
    words [] ≠ 0 ∧ submitWpm [] 0 ≠ some 0 := by
  constructor
  · decide
  · simp [submitWpm]

/-- C2 (amended): the computed WPM equals `wordCount(typed)/(elapsed/60)`
(rounded for display / to two decimals at submit), where the code's word
count is 1 for an empty or all-whitespace typed string (JavaScript
`"".split(/\s+/)` is `[""]`) and otherwise counts the non-empty
whitespace-separated tokens; the live WPM is guarded to 0 at zero
elapsed time (the submit-time WPM is not); `wordCount("The quick brown
fox jumps") = 5`, and at exactly 1 minute elapsed that input yields WPM 5
in both the live and the submit-time computation. -/
theorem c2_wpm_formula :
    (∀ (input : List Char) (m : ℚ),
        localWpm input m = if 0 < m then jsRound ((words input : ℚ) / m) else 0) ∧
    localWpm [] 0 = 0 ∧
    words [] = 1 ∧
    words "The quick brown fox jumps".toList = 5 ∧
    localWpm "The quick brown fox jumps".toList 1 = 5 ∧
    submitWpm "The quick brown fox jumps".toList 60 = some 5 := by
  have hw : words "The quick brown fox jumps".toList = 5 := by decide
  refine ⟨fun input m => rfl, rfl, by decide, hw, ?_, ?_⟩
  · unfold localWpm
    rw [if_pos (by norm_num), hw]
    norm_num [jsRound]
  · unfold submitWpm
    rw [if_neg (by norm_num), hw]
    norm_num [jsRound2, jsRound]

/-- C3 (code bug): on values `[0, 10]` with one bin, `createHistogramBins`
produces the single half-open bin `[round(0), round(10)) = [0, 10)`,
which counts only the value 0 — the bin counts sum to 1, not to the
input length 2, because the exact maximum 10 falls outside every bin. -/
theorem c3_histogram_drops_max :
    createHistogramBins [0, 10] 1 = [⟨0, 10, 1⟩] ∧
    ((createHistogramBins [0, 10] 1).map Bin.count).sum = 1 ∧
    ([(0 : ℚ), 10]).length = 2 := by
  have h : createHistogramBins [0, 10] 1 = [⟨0, 10, 1⟩] := by
    norm_num [createHistogramBins, listMin, listMax, jsRound, List.range_succ, List.filter]
  exact ⟨h, by rw [h]; rfl, rfl⟩

/-- C4 (code bug): `calculateLinearRegression` has no guard for `n < 2` or
a zero denominator.  On the single-element series `[10]` the denominator
`nΣx² - (Σx)²` is 0, the slope is the unguarded JavaScript `0/0 = NaN`,
and the function returns `[NaN]` (modelled `[none]`) instead of a flat
line at the mean (`[10]`) or the empty list; only the `n = 0` case
happens to return the empty list. -/
theorem c4_regression_unguarded :
    calculateLinearRegression [10] = [none] ∧
    calculateLinearRegression [10] ≠ [] ∧
    calculateLinearRegression [10] ≠ [some 10] ∧
    calculateLinearRegression ([] : List ℚ) = [] := by
  have h : calculateLinearRegression [10] = [none] := by
    norm_num [calculateLinearRegression, sumX, sumXX, List.range_succ]
  refine ⟨h, by rw [h]; simp, by rw [h]; simp, ?_⟩
  norm_num [calculateLinearRegression, sumX, sumXX]

/-- C7: on the perfectly linear series `[10, 20, 30, 40, 50]` the
least-squares computation recovers slope 10 and intercept 10 exactly, and
the fitted values reproduce the input values exactly. -/
theorem c7_regression_exact :
    regressionSlope [10, 20, 30, 40, 50] = 10 ∧
    regressionIntercept [10, 20, 30, 40, 50] = 10 ∧
    calculateLinearRegression [10, 20, 30, 40, 50] =
      [some 10, some 20, some 30, some 40, some 50] := by
  refine ⟨?_, ?_, ?_⟩
  · norm_num [regressionSlope, sumX, sumXX, sumXY, List.range_succ, List.enum]
  · norm_num [regressionIntercept, regressionSlope, sumX, sumXX, sumXY,
      List.range_succ, List.enum]
  · norm_num [calculateLinearRegression, regressionSlope, regressionIntercept,
      sumX, sumXX, sumXY, List.range_succ, List.enum]

/-- C9: each of the three operations that leaves the running state —
`finishTest`, `resetTest` and `logout` — leaves no live session timer
behind, from any starting state. -/
theorem c9_timer_cleared_on_exit :
    ∀ (s : AppState),
      (finishTest s).timer = false ∧ (resetTest s).timer = false ∧
      (logout s).timer = false := by
  intro s
  unfold finishTest resetTest logout clearTimer
  by_cases h : s.timer <;> simp [h]

/-- C10: `calculateVariance` returns 0 on the empty list (its guard fires
before any division), so the consistency score
`max(0, 100 - variance/10)` of an empty session history is 100. -/
theorem c10_empty_history_consistency :
    calculateVariance [] = 0 ∧ consistencyScore [] = 100 := by
  norm_num [calculateVariance, consistencyScore]

/-- C5: with fewer than 10 records `calculateChange` returns 0; otherwise
it returns `round(100·(recentAvg − olderAvg)/olderAvg)` for the averages
of the first 5 and the last 5 records, returning 0 when the older
average is 0 (metric values are non-negative in every session record, so
the code's `olderAvg > 0` test coincides with the `olderAvg = 0` guard). -/
theorem c5_change_formula (history : List ℚ) (hnn : ∀ v ∈ history, 0 ≤ v) :
    calculateChange history =
      if history.length < 10 then 0
      else if (history.drop (history.length - 5)).sum / 5 = 0 then 0
      else
        jsRound (100 * ((history.take 5).sum / 5 - (history.drop (history.length - 5)).sum / 5) /
          ((history.drop (history.length - 5)).sum / 5)) := by
  unfold calculateChange
  by_cases h10 : history.length < 10
  · simp [h10]
  · rw [if_neg h10, if_neg h10]
    dsimp only
    have hlen : 10 ≤ history.length := Nat.le_of_not_lt h10
    have htake : (history.take 5).length = 5 := by
      rw [List.length_take]; omega
    have hdrop : (history.drop (history.length - 5)).length = 5 := by
      rw [List.length_drop]; omega
    rw [htake, hdrop]
    push_cast
    have hsum0 : (0 : ℚ) ≤ (history.drop (history.length - 5)).sum :=
      List.sum_nonneg fun v hv => hnn v (List.mem_of_mem_drop hv)
    have havg0 : (0 : ℚ) ≤ (history.drop (history.length - 5)).sum / 5 := by positivity
    by_cases hz : (history.drop (history.length - 5)).sum / 5 = 0
    · rw [if_pos hz, if_neg (by rw [hz]; norm_num)]
    · have hpos : 0 < (history.drop (history.length - 5)).sum / 5 :=
        lt_of_le_of_ne havg0 (Ne.symm hz)
      rw [if_neg hz, if_pos hpos]
      congr 1
      ring

/-- Witness for C5: a concrete 15-record history with non-negative
values, recent average 30 and older average 20, giving a +50% change. -/
theorem c5_change_formula_witness :
    (∀ v ∈ ([30, 30, 30, 30, 30, 0, 0, 0, 0, 0, 20, 20, 20, 20, 20] : List ℚ), 0 ≤ v) ∧
    calculateChange [30, 30, 30, 30, 30, 0, 0, 0, 0, 0, 20, 20, 20, 20, 20] = 50 := by
  have hnn : ∀ v ∈ ([30, 30, 30, 30, 30, 0, 0, 0, 0, 0, 20, 20, 20, 20, 20] : List ℚ),
      0 ≤ v := by norm_num
  refine ⟨hnn, ?_⟩
  rw [c5_change_formula _ hnn]
  norm_num [jsRound]

/-- Helper for C6: the three per-key group sizes add up to the number of
sessions whose defaulted difficulty is one of the three keys. -/
lemma filter_known_difficulty_length (l : List Session) :
    (l.filter fun s => effectiveDifficulty s = "easy").length +
    (l.filter fun s => effectiveDifficulty s = "medium").length +
    (l.filter fun s => effectiveDifficulty s = "hard").length =
    (l.filter fun s => effectiveDifficulty s = "easy" ∨ effectiveDifficulty s = "medium" ∨
      effectiveDifficulty s = "hard").length := by
  simp only [Bool.decide_or]
  induction l with
  | nil => rfl
  | cons a t ih =>
    simp only [List.filter_cons]
    by_cases h1 : effectiveDifficulty a = "easy" <;>
      by_cases h2 : effectiveDifficulty a = "medium" <;>
        by_cases h3 : effectiveDifficulty a = "hard" <;>
          simp [h1, h2, h3] <;> omega

/-- C6 (counterexample): a single session whose difficulty is the unknown
value `"expert"` is dropped by the `if (stats[difficulty])` check instead
of being defaulted to medium, so the three group counts sum to 0, not to
the number of input sessions (1). -/
theorem c6_unknown_difficulty_dropped :
    sumCounts (calculateDifficultyStats [⟨some "expert", 50, 90⟩]) = 0 ∧
    [(⟨some "expert", 50, 90⟩ : Session)].length = 1 := by
  exact ⟨by decide, rfl⟩

/-- C6 (amended): `calculateDifficultyStats` groups sessions by
difficulty, defaulting a missing or empty difficulty to medium but
dropping sessions whose difficulty is some other unknown string; the
counts of the three groups therefore sum to the number of sessions whose
defaulted difficulty is easy, medium or hard (hence to the total number
of sessions whenever no unknown difficulty occurs), and an empty group
reports count 0 and averages 0. -/
theorem c6_difficulty_breakdown (sessions : List Session) :
    sumCounts (calculateDifficultyStats sessions) =
      (sessions.filter fun s =>
        effectiveDifficulty s = "easy" ∨ effectiveDifficulty s = "medium" ∨
        effectiveDifficulty s = "hard").length ∧
    effectiveDifficulty ⟨none, 0, 0⟩ = "medium" ∧
    effectiveDifficulty ⟨some "", 0, 0⟩ = "medium" ∧
    calculateDifficultyStats [] =
      [⟨"easy", 0, 0, 0⟩, ⟨"medium", 0, 0, 0⟩, ⟨"hard", 0, 0, 0⟩] := by
  refine ⟨?_, rfl, rfl, by decide⟩
  simp only [sumCounts, calculateDifficultyStats, List.map_cons, List.map_nil,
    List.sum_cons, List.sum_nil]
  rw [← filter_known_difficulty_length]
  omega

/-- C8: the population variance of a constant non-empty series is 0, so
the consistency score `max(0, 100 - variance/10)` is 100. -/
theorem c8_constant_series_consistency (l : List ℚ) (c : ℚ)
    (hne : l ≠ []) (hc : ∀ x ∈ l, x = c) :
    calculateVariance l = 0 ∧ consistencyScore l = 100 := by
  have hn0 : l.length ≠ 0 := fun h => hne (List.length_eq_zero.mp h)
  have hnQ : ((l.length : ℚ)) ≠ 0 := by exact_mod_cast hn0
  have hl : l = List.replicate l.length c := List.eq_replicate_of_mem hc
  have hsum : l.sum = (l.length : ℚ) * c := by
    conv_lhs => rw [hl]
    rw [List.sum_replicate, nsmul_eq_mul]
  have hmean : l.sum / (l.length : ℚ) = c := by
    rw [hsum]
    field_simp
  have hvar : calculateVariance l = 0 := by
    unfold calculateVariance
    rw [if_neg hn0]
    simp only [hmean]
    have hmap : (l.map fun v => (v - c) ^ 2) = List.replicate l.length 0 := by
      conv_lhs => rw [hl]
      rw [List.map_replicate]
      norm_num
    rw [hmap, List.sum_replicate, smul_zero, zero_div]
  refine ⟨hvar, ?_⟩
  unfold consistencyScore
  rw [hvar]
  norm_num

/-- Witness for C8: the constant series `[42, 42, 42]` has variance 0 and
consistency score 100. -/
theorem c8_constant_series_consistency_witness :
    ([42, 42, 42] : List ℚ) ≠ [] ∧ (∀ x ∈ ([42, 42, 42] : List ℚ), x = 42) ∧
    calculateVariance [42, 42, 42] = 0 ∧ consistencyScore [42, 42, 42] = 100 := by
  have hne : ([42, 42, 42] : List ℚ) ≠ [] := by simp
  have hc : ∀ x ∈ ([42, 42, 42] : List ℚ), x = 42 := by norm_num
  have h := c8_constant_series_consistency [42, 42, 42] 42 hne hc
  exact ⟨hne, hc, h.1, h.2⟩
